import Mathlib

/-!
Shallow embedding of the yt-text job-orchestration core
(src/services/transcription.py, src/services/cache.py,
src/services/download.py, src/lib/backends/factory.py) and proofs of the
spec claims about it.

Machine integers are modelled as Nat with explicit reduction modulo 2^32
where the source's hash arithmetic overflows; fallible code returns
Except; the asynchronous pipeline is modelled as the sequence of job
states committed to the database, driven by an explicit environment
record for the outcomes of the external collaborators (downloader,
backend, cache store, clock).
-/

set_option maxRecDepth 100000

namespace YtText

/-! ## A small model of Python values, as far as the cache code inspects them

The cache stores arbitrary pickled values; `get_transcription` inspects
truthiness, `isinstance(result, dict)` and key membership, so the model
keeps exactly those distinctions. -/

inductive PyVal where
  | vNone : PyVal
  | vStr (s : String) : PyVal
  | vInt (n : Int) : PyVal
  | vDict (fields : List (String × PyVal)) : PyVal

/-- Python truthiness for the modelled values: None is falsy, a string is
truthy iff non-empty, an int iff non-zero, a dict iff non-empty. -/
def PyVal.truthy : PyVal → Bool
  | .vNone => false
  | .vStr s => !(s == "")
  | .vInt n => !(n == 0)
  | .vDict f => !f.isEmpty

/-- isinstance(result, dict) -/
def PyVal.isDict : PyVal → Bool
  | .vDict _ => true
  | _ => false

/-- Python membership test "k in d" for a dict (False on non-dicts; the
source only reaches it behind an isinstance check or swallows the
TypeError). -/
def PyVal.hasKey (v : PyVal) (k : String) : Bool :=
  match v with
  | .vDict f => f.any (fun p => p.1 == k)
  | _ => false

/-- d[k] / d.get(k): first binding of the key, None/absent as none. -/
def PyVal.get? (v : PyVal) (k : String) : Option PyVal :=
  match v with
  | .vDict f => (f.find? (fun p => p.1 == k)).map (fun p => p.2)
  | _ => Option.none

/-- Fields of a dict value (empty for non-dicts). -/
def PyVal.dictFields : PyVal → List (String × PyVal)
  | .vDict f => f
  | _ => []

/-- Extract a Python string, none otherwise. -/
def PyVal.asStr? : PyVal → Option String
  | .vStr s => some s
  | _ => none

/-- Extract a Python int, none otherwise. -/
def PyVal.asInt? : PyVal → Option Int
  | .vInt n => some n
  | _ => none

/-- Option String to Python value (None / str). -/
def optStrToPy : Option String → PyVal
  | some s => .vStr s
  | none => .vNone

/-- Option Int to Python value (None / int). -/
def optIntToPy : Option Int → PyVal
  | some n => .vInt n
  | none => .vNone

/-! ## SHA-256 (hashlib.sha256(...).hexdigest())

The cache key is the SHA-256 hex digest of the UTF-8 encoding of
url + ":" + model; the hash itself is implemented here so that the key
function is executable. 32-bit words are Nat reduced mod 2^32. -/

def w32 (x : Nat) : Nat := x % 4294967296

def rotr32 (n x : Nat) : Nat := w32 ((x >>> n) ||| (x <<< (32 - n)))

def smallSigma0 (x : Nat) : Nat := (rotr32 7 x) ^^^ (rotr32 18 x) ^^^ (x >>> 3)

def smallSigma1 (x : Nat) : Nat := (rotr32 17 x) ^^^ (rotr32 19 x) ^^^ (x >>> 10)

def bigSigma0 (x : Nat) : Nat := (rotr32 2 x) ^^^ (rotr32 13 x) ^^^ (rotr32 22 x)

def bigSigma1 (x : Nat) : Nat := (rotr32 6 x) ^^^ (rotr32 11 x) ^^^ (rotr32 25 x)

def chF (x y z : Nat) : Nat := (x &&& y) ^^^ ((x ^^^ 4294967295) &&& z)

def majF (x y z : Nat) : Nat := (x &&& y) ^^^ (x &&& z) ^^^ (y &&& z)

def sha256K : List Nat :=
  [1116352408, 1899447441, 3049323471, 3921009573, 961987163, 1508970993,
   2453635748, 2870763221, 3624381080, 310598401, 607225278, 1426881987,
   1925078388, 2162078206, 2614888103, 3248222580, 3835390401, 4022224774,
   264347078, 604807628, 770255983, 1249150122, 1555081692, 1996064986,
   2554220882, 2821834349, 2952996808, 3210313671, 3336571891, 3584528711,
   113926993, 338241895, 666307205, 773529912, 1294757372, 1396182291,
   1695183700, 1986661051, 2177026350, 2456956037, 2730485921, 2820302411,
   3259730800, 3345764771, 3516065817, 3600352804, 4094571909, 275423344,
   430227734, 506948616, 659060556, 883997877, 958139571, 1322822218,
   1537002063, 1747873779, 1955562222, 2024104815, 2227730452, 2361852424,
   2428436474, 2756734187, 3204031479, 3329325298]

def sha256H0 : List Nat :=
  [1779033703, 3144134277, 1013904242, 2773480762, 1359893119, 2600822924,
   528734635, 1541459225]

/-- Big-endian bytes of n, k bytes wide. -/
def natToBytesBE (k n : Nat) : List Nat :=
  (List.range k).map (fun i => (n >>> (8 * (k - 1 - i))) &&& 255)

/-- SHA-256 message padding: append 0x80, zeros to 56 mod 64, then the
bit length as 8 big-endian bytes. -/
def sha256Pad (msg : List Nat) : List Nat :=
  let len := msg.length
  let z := (64 - (len + 9) % 64) % 64
  msg ++ [128] ++ List.replicate z 0 ++ natToBytesBE 8 (len * 8)

/-- One big-endian 32-bit word from four bytes. -/
def beWord (a b c d : Nat) : Nat :=
  ((a * 256 + b) * 256 + c) * 256 + d

/-- Group bytes into big-endian 32-bit words. -/
def bytesToWords : List Nat → List Nat
  | b0 :: b1 :: b2 :: b3 :: rest => beWord b0 b1 b2 b3 :: bytesToWords rest
  | _ => []

/-- Split a word list into blocks of 16 (padding makes the length an
exact multiple of 16). -/
def chunk16 : List Nat → List (List Nat)
  | w0 :: w1 :: w2 :: w3 :: w4 :: w5 :: w6 :: w7 ::
    w8 :: w9 :: w10 :: w11 :: w12 :: w13 :: w14 :: w15 :: rest =>
      [w0, w1, w2, w3, w4, w5, w6, w7, w8, w9, w10, w11, w12, w13, w14, w15] ::
        chunk16 rest
  | _ => []

/-- Message schedule W[0..63]. -/
def sha256Schedule (block : List Nat) : Array Nat :=
  (List.range 48).foldl
    (fun w i =>
      w.push (w32 (smallSigma1 (w.getD (i + 14) 0) + w.getD (i + 9) 0 +
                   smallSigma0 (w.getD (i + 1) 0) + w.getD i 0)))
    block.toArray

structure Sha256State where
  a : Nat
  b : Nat
  c : Nat
  d : Nat
  e : Nat
  f : Nat
  g : Nat
  hh : Nat

/-- One-block compression. -/
def sha256Compress (hs : List Nat) (block : List Nat) : List Nat :=
  let w := sha256Schedule block
  let init : Sha256State :=
    ⟨hs.getD 0 0, hs.getD 1 0, hs.getD 2 0, hs.getD 3 0,
     hs.getD 4 0, hs.getD 5 0, hs.getD 6 0, hs.getD 7 0⟩
  let fin := (List.range 64).foldl
    (fun s i =>
      let t1 := w32 (s.hh + bigSigma1 s.e + chF s.e s.f s.g + sha256K.getD i 0 + w.getD i 0)
      let t2 := w32 (bigSigma0 s.a + majF s.a s.b s.c)
      ⟨w32 (t1 + t2), s.a, s.b, s.c, w32 (s.d + t1), s.e, s.f, s.g⟩)
    init
  [w32 (hs.getD 0 0 + fin.a), w32 (hs.getD 1 0 + fin.b),
   w32 (hs.getD 2 0 + fin.c), w32 (hs.getD 3 0 + fin.d),
   w32 (hs.getD 4 0 + fin.e), w32 (hs.getD 5 0 + fin.f),
   w32 (hs.getD 6 0 + fin.g), w32 (hs.getD 7 0 + fin.hh)]

/-- Big-endian bytes of a 32-bit word. -/
def wordToBytes (w : Nat) : List Nat :=
  [w / 16777216 % 256, w / 65536 % 256, w / 256 % 256, w % 256]

/-- SHA-256 digest of a byte list, as 32 bytes. -/
def sha256Bytes (msg : List Nat) : List Nat :=
  let blocks := chunk16 (bytesToWords (sha256Pad msg))
  (blocks.foldl sha256Compress sha256H0).flatMap wordToBytes

def hexDigitChar (n : Nat) : Char :=
  if n < 10 then Char.ofNat (48 + n) else Char.ofNat (87 + n)

def byteToHex (b : Nat) : List Char :=
  [hexDigitChar (b / 16), hexDigitChar (b % 16)]

/-- UTF-8 bytes of one character (str.encode()). -/
def utf8Bytes (c : Char) : List Nat :=
  let n := c.toNat
  if n < 128 then [n]
  else if n < 2048 then [192 ||| (n >>> 6), 128 ||| (n &&& 63)]
  else if n < 65536 then
    [224 ||| (n >>> 12), 128 ||| ((n >>> 6) &&& 63), 128 ||| (n &&& 63)]
  else
    [240 ||| (n >>> 18), 128 ||| ((n >>> 12) &&& 63),
     128 ||| ((n >>> 6) &&& 63), 128 ||| (n &&& 63)]

/-- str.encode(): UTF-8 bytes of a string. -/
def strEncode (s : String) : List Nat :=
  s.data.flatMap utf8Bytes

/-- hashlib.sha256(b).hexdigest() -/
def sha256Hex (msg : List Nat) : String :=
  String.mk ((sha256Bytes msg).flatMap byteToHex)

/-- CacheService._generate_cache_key: sha256 hex digest of
(url + ":" + model).encode(). -/
def generate_cache_key (url model : String) : String :=
  sha256Hex (strEncode (url ++ ":" ++ model))

/-! ## CacheService (src/services/cache.py)

self.cache is a diskcache.Cache when caching is enabled, else None; the
guards "if not self.cache" use Python truthiness, under which None and an
empty cache are both falsy (diskcache.Cache defines __len__). The store
is modelled as an association list from key strings to stored values;
TTL metadata is not modelled (no claim concerns expiry). Reads are
modelled as not raising; the fallibility of the write (cache.set) is an
explicit Boolean of the environment. -/

structure CacheState where
  store : Option (List (String × PyVal))

/-- Truthiness of self.cache: None is falsy, a cache is falsy iff empty. -/
def cacheTruthy : Option (List (String × PyVal)) → Bool
  | none => false
  | some l => !l.isEmpty

def assocGet (l : List (String × PyVal)) (k : String) : Option PyVal :=
  (l.find? (fun p => p.1 == k)).map (fun p => p.2)

def assocDelete (l : List (String × PyVal)) (k : String) : List (String × PyVal) :=
  l.filter (fun p => !(p.1 == k))

def assocSet (l : List (String × PyVal)) (k : String) (v : PyVal) :
    List (String × PyVal) :=
  (k, v) :: assocDelete l k

/-- CacheService.get_transcription: result of cache.get(key); a falsy
result falls through to return None; a truthy result is returned when it
is a dict containing the key "text", otherwise it is deleted and None is
returned. Returns the result together with the cache state after the
call. -/
def get_transcription (c : CacheState) (url model : String) :
    Option PyVal × CacheState :=
  if !cacheTruthy c.store then (none, c)
  else
    let key := generate_cache_key url model
    let entries := c.store.getD []
    match assocGet entries key with
    | none => (none, c)
    | some v =>
        if v.truthy then
          if v.isDict && v.hasKey "text" then (some v, c)
          else (none, ⟨some (assocDelete entries key)⟩)
        else (none, c)

/-- Python dict update: set k to v in place if present, else append. -/
def dictSetKey (f : List (String × PyVal)) (k : String) (v : PyVal) :
    List (String × PyVal) :=
  if f.any (fun p => p.1 == k) then
    f.map (fun p => if p.1 == k then (k, v) else p)
  else f ++ [(k, v)]

/-- The dict literal \x7b**result, 'cached_at': ..., 'url': url, 'model': model\x7d. -/
def buildCacheEntry (result : PyVal) (url model : String) (now : Nat) : PyVal :=
  .vDict (dictSetKey (dictSetKey (dictSetKey result.dictFields
    "cached_at" (.vStr (toString now))) "url" (.vStr url)) "model" (.vStr model))

/-- The body of CacheService.store_transcription inside its try block:
cache.set may raise (setFails); everything else is pure. -/
def store_transcription_raw (setFails : Bool) (c : CacheState)
    (url model : String) (result : PyVal) (now : Nat) :
    Except String CacheState :=
  if !(result.hasKey "text") then .ok c
  else if setFails then .error "cache set failed"
  else .ok ⟨some (assocSet (c.store.getD []) (generate_cache_key url model)
                  (buildCacheEntry result url model now))⟩

/-- CacheService.store_transcription: no-op when self.cache is falsy;
otherwise runs the body with every exception swallowed (the cache state
observed afterwards is the pre-call one when the set raised). Always
returns normally. -/
def store_transcription (setFails : Bool) (c : CacheState)
    (url model : String) (result : PyVal) (now : Nat) : CacheState :=
  if !cacheTruthy c.store then c
  else
    match store_transcription_raw setFails c url model result now with
    | .ok c' => c'
    | .error _ => c

/-! ## DownloadService.is_supported_url (src/services/download.py)

urllib.parse.urlparse is modelled for the scheme/netloc components only:
a scheme is a leading run of scheme characters terminated by a colon,
and the netloc is present only when what follows starts with "//",
running to the next "/", "?" or "#". -/

/-- Does the character list start with the given needle. -/
def listStartsWith : List Char → List Char → Bool
  | _, [] => true
  | [], _ :: _ => false
  | h :: hs, n :: ns => h == n && listStartsWith hs ns

/-- Substring containment test (Python "needle in hay"). -/
def listContains : List Char → List Char → Bool
  | [], needle => needle.isEmpty
  | h :: hs, needle => listStartsWith (h :: hs) needle || listContains hs needle

/-- A valid URL scheme: a letter followed by letters, digits, "+", "-", ".". -/
def isSchemeChars : List Char → Bool
  | [] => false
  | c :: cs => c.isAlpha && cs.all (fun d => d.isAlphanum || d == '+' || d == '-' || d == '.')

/-- Split at the first colon, when there is one. -/
def splitFirstColon : List Char → Option (List Char × List Char)
  | [] => none
  | c :: cs =>
    if c = ':' then some ([], cs)
    else
      match splitFirstColon cs with
      | none => none
      | some (pre, post) => some (c :: pre, post)

/-- Modelled from urllib.parse.urlparse: the (scheme, netloc) pair of a
URL. The scheme is what stands before the first colon when it is a
valid scheme string; the netloc is present only when the remainder
starts with "//", running to the next "/", "?" or "#". -/
def urlparseSchemeNetloc (url : String) : List Char × List Char :=
  let p :=
    match splitFirstColon url.data with
    | some (s, rest) =>
        if isSchemeChars s then (s.map Char.toLower, rest)
        else (([] : List Char), url.data)
    | none => (([] : List Char), url.data)
  let netloc :=
    match p.2 with
    | '/' :: '/' :: r => r.takeWhile (fun c => !(c == '/') && !(c == '?') && !(c == '#'))
    | _ => []
  (p.1, netloc)

/-- The settings consulted by the modelled services (src/core/config.py). -/
structure AppSettings where
  cache_enabled : Bool
  max_concurrent_jobs : Nat
  url_blocklist : List String
  url_allowlist : List String

/-- DownloadService.is_supported_url: requires a scheme and a netloc,
rejects netlocs containing a blocklisted domain, and, when an allowlist
is configured, netlocs containing no allowlisted domain. -/
def is_supported_url (s : AppSettings) (url : String) : Bool :=
  let p := urlparseSchemeNetloc url
  if p.1.isEmpty || p.2.isEmpty then false
  else if s.url_blocklist.any
      (fun d => listContains (p.2.map Char.toLower) d.data) then false
  else if !s.url_allowlist.isEmpty &&
      !s.url_allowlist.any
        (fun d => listContains (p.2.map Char.toLower) d.data) then false
  else true

/-! ## Backends and BackendFactory (src/lib/backends/factory.py)

A backend is observed through get_priority() and is_available(); the
availability of a backend is modelled as static over the run. -/

structure Backend where
  name : String
  priority : Nat
  available : Bool
deriving DecidableEq

/-- The sort key of BackendFactory.initialize. -/
def priorityLE (a b : Backend) : Prop := a.priority ≤ b.priority

instance : DecidableRel priorityLE := fun a b => Nat.decLe a.priority b.priority

instance : IsTotal Backend priorityLE :=
  ⟨fun a b => Nat.le_total a.priority b.priority⟩

instance : IsTrans Backend priorityLE :=
  ⟨fun _ _ _ hab hbc => Nat.le_trans hab hbc⟩

/-- BackendFactory.initialize: keep the backends whose is_available()
returned true and sort them ascending by priority (list.sort with a key
function is a stable ascending sort, here realised as a stable insertion
sort). -/
def factoryInitialize (configured : List Backend) : List Backend :=
  (configured.filter (fun b => b.available)).insertionSort priorityLE

/-- BackendFactory.get_best_backend on an initialized factory: the first
backend of the sorted list whose is_available() returns true. -/
def get_best_backend (initialized : List Backend) : Option Backend :=
  initialized.find? (fun b => b.available)

/-! ## Job data model (src/core/models.py)

TranscriptionJob's fields, with UUIDs as Nat and datetimes as Nat
timestamps. -/

inductive JobStatus where
  | pending : JobStatus
  | processing : JobStatus
  | completed : JobStatus
  | failed : JobStatus
deriving DecidableEq

/-- Modelled from the spec: the JobPhase enum
\x7bdownloading, transcribing, finalizing, complete\x7d. The pipeline module
imports JobPhase from src.core.models and assigns job.phase at each
stage, but the enum's definition (and the phase column) is missing from
the models module in the sources; the spec's section 3 enumerates its
values, which match every use site. -/
inductive JobPhase where
  | downloading : JobPhase
  | transcribing : JobPhase
  | finalizing : JobPhase
  | complete : JobPhase
deriving DecidableEq

structure Job where
  id : Nat
  url : String
  status : JobStatus := .pending
  model_requested : String := "base"
  language : Option String := none
  text : Option String := none
  title : Option String := none
  duration : Option Int := none
  word_count : Option Nat := none
  model_used : Option String := none
  detected_language : Option String := none
  error : Option String := none
  progress : Nat := 0
  processing_time_ms : Option Nat := none
  ip_address : Option String := none
  user_agent : Option String := none
  phase : Option JobPhase := none
  created_at : Nat := 0
  started_at : Option Nat := none
  completed_at : Option Nat := none
deriving DecidableEq

/-- Accumulating helper for Python str.split(): whitespace-separated
words, empties dropped; cur is the current word, reversed. -/
def wordsAux : List Char → List Char → List (List Char)
  | [], cur => if cur.isEmpty then [] else [cur.reverse]
  | c :: cs, cur =>
    if c.isWhitespace then
      if cur.isEmpty then wordsAux cs [] else cur.reverse :: wordsAux cs []
    else wordsAux cs (c :: cur)

/-- len(text.split()) -/
def countWords (s : String) : Nat :=
  (wordsAux s.data []).length

/-! ## TranscriptionService (src/services/transcription.py)

The orchestrator is modelled against an explicit environment supplying
the outcomes of the external collaborators and the clock. Database
commits are modelled as succeeding; the sequence of committed job states
is the observable behaviour of a pipeline run. -/

/-- download_audio's result dict, as far as the pipeline reads it. -/
structure AudioInfo where
  audio_path : String
  title : Option String
  duration : Option Int
deriving DecidableEq

/-- TranscriptionResult from src/lib/backends/base.py, the fields the
pipeline reads. -/
structure BackendResult where
  text : String
  language : String
  model_used : String
deriving DecidableEq

/-- Outcomes of the external collaborators during one pipeline run. -/
structure PipelineEnv where
  downloadResult : Except String AudioInfo
  backend : Option Backend
  transcribeResult : Except String BackendResult
  cacheSetFails : Bool
  startTime : Nat
  endTime : Nat

/-- TranscriptionService._mark_job_failed: status failed, the error
recorded, completed_at stamped, processing time derived when started_at
is set. The text field is left untouched. -/
def markJobFailed (job : Job) (err : String) (now : Nat) : Job :=
  { job with
    status := .failed
    error := some err
    completed_at := some now
    processing_time_ms :=
      match job.started_at with
      | some s => some (now - s)
      | none => job.processing_time_ms }

/-- TranscriptionService._process_job, as the ordered list of job states
committed to the database during the run, together with the cache state
after the run. The input job is the state read at the start of the run;
settings.cache_enabled gates the store step. -/
def process_job (s : AppSettings) (env : PipelineEnv) (cache : CacheState)
    (job : Job) : List Job × CacheState :=
  let j1 : Job :=
    { job with
      status := .processing
      started_at := some env.startTime
      phase := some .downloading
      progress := 0 }
  match env.downloadResult with
  | .error e => ([j1, markJobFailed j1 ("Download failed: " ++ e) env.endTime], cache)
  | .ok audio =>
    let j2 : Job := { j1 with title := audio.title, duration := audio.duration, progress := 100 }
    match env.backend with
    | none => ([j1, j2, markJobFailed j2 "No transcription backend available" env.endTime], cache)
    | some _ =>
      let j3 : Job := { j2 with phase := some .transcribing, progress := 0 }
      match env.transcribeResult with
      | .error e =>
          ([j1, j2, j3, markJobFailed j3 ("Transcription failed: " ++ e) env.endTime], cache)
      | .ok result =>
        let j4 : Job :=
          { j3 with
            text := some result.text
            model_used := some result.model_used
            detected_language := some result.language
            word_count := some (countWords result.text)
            progress := 100 }
        let cache' :=
          if s.cache_enabled then
            store_transcription env.cacheSetFails cache j4.url j4.model_requested
              (.vDict [("text", optStrToPy j4.text), ("title", optStrToPy j4.title),
                       ("duration", optIntToPy j4.duration),
                       ("model_used", optStrToPy j4.model_used),
                       ("language", optStrToPy j4.detected_language)])
              env.endTime
          else cache
        let j5 : Job := { j4 with phase := some .finalizing, progress := 0 }
        let j6 : Job :=
          { j5 with
            status := .completed
            phase := some .complete
            progress := 100
            completed_at := some env.endTime
            processing_time_ms := some (env.endTime - env.startTime) }
        ([j1, j2, j3, j4, j5, j6], cache')

/-- Result of TranscriptionService.create_job: the outcome (the raised
ValueError as an error value), the job store, the cache state, and
whether a background pipeline task was scheduled. -/
structure CreateResult where
  outcome : Except String Job
  jobs : List Job
  cache : CacheState
  scheduled : Bool

/-- TranscriptionService.create_job. Validates the URL; on a cache hit
builds a completed job directly from the cached entry (a non-string
"text" value would raise at the .split() call, modelled as a TypeError
outcome); on a miss persists a pending job and schedules the pipeline
when requested and below the concurrency cap. -/
def create_job (s : AppSettings) (runningJobs : Nat) (cache : CacheState)
    (jobs : List Job) (url model : String) (language : Option String)
    (start_processing : Bool) (newId now : Nat) : CreateResult :=
  if !is_supported_url s url then
    ⟨.error ("Unsupported URL: " ++ url), jobs, cache, false⟩
  else
    let hit : Option PyVal × CacheState :=
      if s.cache_enabled then get_transcription cache url model else (none, cache)
    match hit.1 with
    | some v =>
      match (v.get? "text").bind PyVal.asStr? with
      | none => ⟨.error "TypeError", jobs, hit.2, false⟩
      | some t =>
        let job : Job :=
          { id := newId
            url := url
            model_requested := model
            language := language
            status := .completed
            text := some t
            title := (v.get? "title").bind PyVal.asStr?
            duration := (v.get? "duration").bind PyVal.asInt?
            model_used := some (((v.get? "model_used").bind PyVal.asStr?).getD model)
            detected_language := (v.get? "language").bind PyVal.asStr?
            word_count := some (countWords t)
            completed_at := some now
            processing_time_ms := some 0
            created_at := now }
        ⟨.ok job, jobs ++ [job], hit.2, false⟩
    | none =>
      let job : Job :=
        { id := newId
          url := url
          model_requested := model
          language := language
          created_at := now }
      ⟨.ok job, jobs ++ [job], hit.2,
        start_processing && decide (runningJobs < s.max_concurrent_jobs)⟩

/-- TranscriptionService.get_job: lookup by id. -/
def get_job (jobs : List Job) (jobId : Nat) : Option Job :=
  jobs.find? (fun j => j.id == jobId)

/-- The reset applied by TranscriptionService.retry_job to a failed job. -/
def resetJobForRetry (job : Job) : Job :=
  { job with
    status := .pending
    error := none
    progress := 0
    started_at := none
    completed_at := none
    processing_time_ms := none }

/-- TranscriptionService.retry_job: None (store untouched) unless the
job exists with status failed; otherwise the job is reset to pending and
rescheduled when a concurrency slot is free. Returns the returned job,
the job store after the call, and whether a task was scheduled. -/
def retry_job (s : AppSettings) (runningJobs : Nat) (jobs : List Job)
    (jobId : Nat) : Option Job × List Job × Bool :=
  match get_job jobs jobId with
  | none => (none, jobs, false)
  | some job =>
    if job.status ≠ JobStatus.failed then (none, jobs, false)
    else
      let job' := resetJobForRetry job
      (some job',
       jobs.map (fun j => if j.id == jobId then job' else j),
       decide (runningJobs < s.max_concurrent_jobs))

/-- TranscriptionService.stream_job_updates: one database read per poll
(obs n is the job visible at poll n), yielding each snapshot read,
breaking when the job is missing or after yielding a snapshot whose
status is completed or failed. The fuel argument bounds the number of
polls; none means the loop was still running after that many polls. -/
def isTerminalStatus : JobStatus → Bool
  | .completed => true
  | .failed => true
  | _ => false

def streamAux (obs : Nat → Option Job) : Nat → Nat → Option (List Job)
  | _, 0 => none
  | start, fuel + 1 =>
    match obs start with
    | none => some []
    | some job =>
      if isTerminalStatus job.status then some [job]
      else (streamAux obs (start + 1) fuel).map (fun rest => job :: rest)

/-- The stream eventually terminates (is a finite sequence). -/
def streamTerminates (obs : Nat → Option Job) : Prop :=
  ∃ fuel out, streamAux obs 0 fuel = some out

/-- The poll at index n observes a missing job or a terminal one: the
two conditions under which the streaming loop breaks. -/
def stopObs (obs : Nat → Option Job) (n : Nat) : Prop :=
  obs n = none ∨ ∃ j, obs n = some j ∧ isTerminalStatus j.status = true

/-- Between two consecutive committed states, progress does not decrease
as long as the status stays processing and the phase is unchanged. -/
def phaseMonotone (a b : Job) : Prop :=
  a.status = .processing → b.status = .processing → a.phase = b.phase →
    a.progress ≤ b.progress

/-! ## Concrete instances used by witnesses and counterexamples -/

def backendA : Backend := ⟨"A", 5, true⟩

def backendB : Backend := ⟨"B", 10, false⟩

def backendC : Backend := ⟨"C", 50, true⟩

def sampleSettings : AppSettings := ⟨true, 3, [], []⟩

def emptyCache : CacheState := ⟨some []⟩

def seededCache : CacheState := ⟨some [("seed", .vInt 1)]⟩

def validEntry : PyVal := .vDict [("text", .vStr "hello world")]

def cacheWithValidEntry : CacheState :=
  ⟨some [(generate_cache_key "https://x/video" "base", validEntry)]⟩

def emptyTextEntry : PyVal := .vDict [("text", .vStr "")]

def cacheWithEmptyTextEntry : CacheState :=
  ⟨some [(generate_cache_key "https://x/video" "base", emptyTextEntry)]⟩

def freshJob : Job := { id := 1, url := "https://x/video" }

def failedSampleJob : Job :=
  { id := 2, url := "https://x/video", status := .failed, error := some "boom",
    progress := 55, started_at := some 1, completed_at := some 5,
    processing_time_ms := some 4000 }

def envDownloadFail : PipelineEnv :=
  ⟨.error "boom", none, .error "unused", false, 1, 5⟩

def envAllOk : PipelineEnv :=
  ⟨.ok ⟨"/tmp/a.wav", some "Title", some 10⟩, some backendA,
   .ok ⟨"hello world", "en", "base"⟩, false, 1, 5⟩

def sampleTrace : List Job :=
  (process_job sampleSettings envAllOk emptyCache freshJob).1

def foreverPendingJob : Job := { id := 7, url := "https://x/video" }

def pendingObs : Nat → Option Job := fun _ => some foreverPendingJob

def missingObs : Nat → Option Job := fun _ => none

/-! # Theorems -/

/-- Sanity check of the SHA-256 model against the standard test vector
for "abc". -/
theorem sha256_test_vector :
    sha256Hex (strEncode "abc") =
      "ba7816bf8f01cfea414140de5dae2223b00361a396177a9cb410ff61f20015ad" := by
  rfl

/-- C7: the cache key is the hash of url ++ ":" ++ model, so the key
function is not injective on (url, model) pairs: the distinct pairs
("a:b", "c") and ("a", "b:c") share a key, and after storing a result
under the first pair a lookup with the second pair returns an entry. -/
theorem cache_key_collision :
    generate_cache_key "a:b" "c" = generate_cache_key "a" "b:c" ∧
    (("a:b", "c") : String × String) ≠ ("a", "b:c") ∧
    ((get_transcription
        (store_transcription false seededCache "a:b" "c"
          (.vDict [("text", .vStr "hello")]) 0)
        "a" "b:c").1).isSome = true := by
  refine ⟨rfl, by decide, ?_⟩
  rfl

/-- On a list of available backends sorted by priority, find? of the
availability test returns the head, which has minimal priority. -/
theorem find_first_avail_min (l : List Backend)
    (hall : ∀ x ∈ l, x.available = true)
    (hs : List.Pairwise priorityLE l)
    (b : Backend) (hf : l.find? (fun x => x.available) = some b) :
    b.available = true ∧ b ∈ l ∧ ∀ x ∈ l, b.priority ≤ x.priority := by
  cases l with
  | nil => simp at hf
  | cons hd tl =>
    have hhd : hd.available = true := hall hd (by simp)
    rw [List.find?_cons_of_pos _ (by simp [hhd])] at hf
    obtain rfl : hd = b := by simpa using hf
    rcases List.pairwise_cons.mp hs with ⟨hmin, _⟩
    refine ⟨hhd, by simp, ?_⟩
    intro x hx
    rcases List.mem_cons.mp hx with rfl | hx
    · exact Nat.le_refl _
    · exact hmin x hx

/-- C4: get_best_backend on an initialized registry returns an available
backend of minimal priority value among the available configured
backends, returns None when no configured backend is available, and on
the concrete registry A(5, available), B(10, unavailable),
C(50, available) it returns A. -/
theorem get_best_backend_spec (configured : List Backend) :
    (∀ b, get_best_backend (factoryInitialize configured) = some b →
        b.available = true ∧ b ∈ configured ∧
        ∀ b' ∈ configured, b'.available = true → b.priority ≤ b'.priority) ∧
    ((∀ b ∈ configured, b.available = false) →
        get_best_backend (factoryInitialize configured) = none) ∧
    get_best_backend (factoryInitialize [backendA, backendB, backendC]) =
      some backendA := by
  refine ⟨?_, ?_, by decide⟩
  · intro b hb
    unfold get_best_backend factoryInitialize at hb
    have hperm := List.perm_insertionSort priorityLE
      (configured.filter (fun x => x.available))
    have hsorted : List.Pairwise priorityLE
        ((configured.filter (fun x => x.available)).insertionSort priorityLE) :=
      List.sorted_insertionSort priorityLE (configured.filter (fun x => x.available))
    have hall : ∀ x ∈ (configured.filter (fun x => x.available)).insertionSort
        priorityLE, x.available = true := by
      intro x hx
      have := hperm.mem_iff.mp hx
      exact (List.mem_filter.mp this).2
    obtain ⟨hav, hmem, hmin⟩ := find_first_avail_min _ hall hsorted b hb
    refine ⟨hav, (List.mem_filter.mp (hperm.mem_iff.mp hmem)).1, ?_⟩
    intro b' hb' hav'
    exact hmin b' (hperm.mem_iff.mpr (List.mem_filter.mpr ⟨hb', hav'⟩))
  · intro hnone
    unfold get_best_backend factoryInitialize
    rw [List.find?_eq_none]
    intro x hx
    have hperm := List.perm_insertionSort priorityLE
      (configured.filter (fun x => x.available))
    have hx' := List.mem_filter.mp (hperm.mem_iff.mp hx)
    simp [hnone x hx'.1] at hx'

/-- Witness for C4: the general theorem applied to the concrete
registry [A, B, C]. -/
theorem get_best_backend_spec_witness :
    backendA.available = true ∧ backendA ∈ [backendA, backendB, backendC] ∧
    ∀ b' ∈ [backendA, backendB, backendC], b'.available = true →
      backendA.priority ≤ b'.priority :=
  (get_best_backend_spec [backendA, backendB, backendC]).1 backendA
    (get_best_backend_spec [backendA, backendB, backendC]).2.2

/-- C5: retry_job returns None and leaves the job store unchanged when
the job is absent or not failed; on a failed job it returns the job
reset to pending with error cleared, progress 0, and started_at,
completed_at, processing_time_ms cleared, and writes that reset job back
to the store. -/
theorem retry_job_spec (s : AppSettings) (running : Nat) (jobs : List Job)
    (jobId : Nat) :
    ((get_job jobs jobId = none ∨
        ∀ j, get_job jobs jobId = some j → j.status ≠ .failed) →
      retry_job s running jobs jobId = (none, jobs, false)) ∧
    (∀ j, get_job jobs jobId = some j → j.status = .failed →
      (retry_job s running jobs jobId).1 = some (resetJobForRetry j) ∧
      (retry_job s running jobs jobId).2.1 =
        jobs.map (fun x => if x.id == jobId then resetJobForRetry j else x) ∧
      (resetJobForRetry j).status = .pending ∧
      (resetJobForRetry j).error = none ∧
      (resetJobForRetry j).progress = 0 ∧
      (resetJobForRetry j).started_at = none ∧
      (resetJobForRetry j).completed_at = none ∧
      (resetJobForRetry j).processing_time_ms = none) := by
  constructor
  · intro h
    unfold retry_job
    cases hj : get_job jobs jobId with
    | none => rfl
    | some j =>
      rcases h with h | h
      · rw [hj] at h; cases h
      · simp [h j hj]
  · intro j hj hfail
    unfold retry_job
    rw [hj]
    simp [hfail, resetJobForRetry]

/-- Witness for C5: both branches at concrete inputs — a store holding
one failed job, retried, and the same store queried at an absent id. -/
theorem retry_job_spec_witness :
    ((retry_job sampleSettings 0 [failedSampleJob] 2).1 =
        some (resetJobForRetry failedSampleJob) ∧
      (resetJobForRetry failedSampleJob).status = .pending) ∧
    retry_job sampleSettings 0 [failedSampleJob] 99 = (none, [failedSampleJob], false) := by
  constructor
  · have h := (retry_job_spec sampleSettings 0 [failedSampleJob] 2).2
      failedSampleJob (by decide) (by decide)
    exact ⟨h.1, h.2.2.1⟩
  · exact (retry_job_spec sampleSettings 0 [failedSampleJob] 99).1 (.inl (by decide))

/-- C8: create_job on an unsupported or blocked URL raises the
validation error synchronously: the outcome is the error, no job is
appended, the cache is untouched and no pipeline is scheduled. -/
theorem create_job_rejects_unsupported (s : AppSettings) (running : Nat)
    (cache : CacheState) (jobs : List Job) (url model : String)
    (language : Option String) (sp : Bool) (newId now : Nat)
    (h : is_supported_url s url = false) :
    create_job s running cache jobs url model language sp newId now =
      ⟨.error ("Unsupported URL: " ++ url), jobs, cache, false⟩ := by
  unfold create_job
  simp [h]

/-- Witness for C8: a URL with no scheme is rejected with the store and
cache returned unchanged. -/
theorem create_job_rejects_unsupported_witness :
    create_job sampleSettings 0 emptyCache [] "notaurl" "base" none true 1 0 =
      ⟨.error "Unsupported URL: notaurl", [], emptyCache, false⟩ :=
  create_job_rejects_unsupported sampleSettings 0 emptyCache [] "notaurl" "base"
    none true 1 0 (by decide)

/-- C6 (amended): get_transcription returns a stored value exactly when
it is present, truthy, and a dict containing the key "text" — the text
value itself is never inspected, so it may be empty; a present truthy
value failing the dict-with-"text" check is deleted and reported as a
miss; a present falsy value or an absent key is a miss that leaves the
cache untouched. -/
theorem get_transcription_spec (c : CacheState) (url model : String) :
    (∀ v, (get_transcription c url model).1 = some v →
        assocGet (c.store.getD []) (generate_cache_key url model) = some v ∧
        v.truthy = true ∧ v.isDict = true ∧ v.hasKey "text" = true ∧
        (get_transcription c url model).2 = c) ∧
    (∀ v, cacheTruthy c.store = true →
        assocGet (c.store.getD []) (generate_cache_key url model) = some v →
        v.truthy = true → (v.isDict && v.hasKey "text") = false →
        (get_transcription c url model).1 = none ∧
        (get_transcription c url model).2 =
          ⟨some (assocDelete (c.store.getD []) (generate_cache_key url model))⟩) ∧
    (∀ v, assocGet (c.store.getD []) (generate_cache_key url model) = some v →
        v.truthy = false →
        (get_transcription c url model).1 = none ∧
        (get_transcription c url model).2 = c) ∧
    (assocGet (c.store.getD []) (generate_cache_key url model) = none →
        (get_transcription c url model).1 = none ∧
        (get_transcription c url model).2 = c) := by
  by_cases hT : cacheTruthy c.store = true
  · cases hget : assocGet (c.store.getD []) (generate_cache_key url model) with
    | none =>
      have hout : get_transcription c url model = (none, c) := by
        unfold get_transcription
        simp [hT, hget]
      refine ⟨?_, ?_, ?_, ?_⟩
      · intro v hv
        rw [hout] at hv
        cases hv
      · intro v _ hv
        cases hv
      · intro v hv
        cases hv
      · intro _
        rw [hout]
        exact ⟨rfl, rfl⟩
    | some w =>
      by_cases htr : w.truthy = true
      · by_cases hdt : (w.isDict && w.hasKey "text") = true
        · have hout : get_transcription c url model = (some w, c) := by
            unfold get_transcription
            simp [hT, hget, htr, hdt]
          have hsplit : w.isDict = true ∧ w.hasKey "text" = true := by
            simpa using hdt
          refine ⟨?_, ?_, ?_, ?_⟩
          · intro v hv
            rw [hout] at hv
            cases hv
            exact ⟨rfl, htr, hsplit.1, hsplit.2, by rw [hout]⟩
          · intro v _ hv _ hdt'
            cases hv
            rw [hdt] at hdt'
            cases hdt'
          · intro v hv htr'
            cases hv
            rw [htr'] at htr
            cases htr
          · intro hv
            cases hv
        · have hdt' : (w.isDict && w.hasKey "text") = false := by
            simpa using hdt
          have hout : get_transcription c url model =
              (none, ⟨some (assocDelete (c.store.getD [])
                        (generate_cache_key url model))⟩) := by
            unfold get_transcription
            simp [hT, hget, htr, hdt']
          refine ⟨?_, ?_, ?_, ?_⟩
          · intro v hv
            rw [hout] at hv
            cases hv
          · intro v _ hv _ _
            cases hv
            rw [hout]
            exact ⟨rfl, rfl⟩
          · intro v hv htr'
            cases hv
            rw [htr'] at htr
            cases htr
          · intro hv
            cases hv
      · have htrF : w.truthy = false := by
          simpa using htr
        have hout : get_transcription c url model = (none, c) := by
          unfold get_transcription
          simp [hT, hget, htrF]
        refine ⟨?_, ?_, ?_, ?_⟩
        · intro v hv
          rw [hout] at hv
          cases hv
        · intro v _ hv htrT _
          cases hv
          rw [htrT] at htrF
          cases htrF
        · intro v hv _
          cases hv
          rw [hout]
          exact ⟨rfl, rfl⟩
        · intro hv
          cases hv
  · have hT' : cacheTruthy c.store = false := by
      simpa using hT
    have hstore : c.store.getD [] = [] := by
      obtain ⟨st⟩ := c
      cases st with
      | none => rfl
      | some l =>
        cases l with
        | nil => rfl
        | cons a as => simp [cacheTruthy] at hT'
    have hout : get_transcription c url model = (none, c) := by
      unfold get_transcription
      simp [hT']
    refine ⟨?_, ?_, ?_, ?_⟩
    · intro v hv
      rw [hout] at hv
      cases hv
    · intro v hTT
      exact absurd hTT hT
    · intro v hv
      rw [hstore] at hv
      simp [assocGet] at hv
    · intro _
      rw [hout]
      exact ⟨rfl, rfl⟩

/-- Counterexample for C6 as stated: a cache entry whose text is the
empty string is returned by get_transcription even though its text is
not non-empty. -/
theorem get_transcription_counterexample :
    (get_transcription cacheWithEmptyTextEntry "https://x/video" "base").1 =
      some emptyTextEntry ∧
    emptyTextEntry.get? "text" = some (.vStr "") := by
  exact ⟨rfl, rfl⟩

/-- Witness for the amended C6: the hit branch at a concrete cache
holding a well-formed entry. -/
theorem get_transcription_spec_witness :
    assocGet (cacheWithValidEntry.store.getD [])
        (generate_cache_key "https://x/video" "base") = some validEntry ∧
    validEntry.truthy = true ∧ validEntry.isDict = true ∧
    validEntry.hasKey "text" = true ∧
    (get_transcription cacheWithValidEntry "https://x/video" "base").2 =
      cacheWithValidEntry :=
  (get_transcription_spec cacheWithValidEntry "https://x/video" "base").1
    validEntry (by rfl)

/-- C1: with caching enabled and a valid cached entry for (url, model),
create_job returns a completed job whose text is the cached text and
whose processing_time_ms is 0, appends exactly that job, schedules no
background pipeline (so neither the downloader nor any backend can be
invoked for it), and leaves the cache unchanged. -/
theorem create_job_cache_hit (s : AppSettings) (running : Nat)
    (entries : List (String × PyVal)) (jobs : List Job) (url model : String)
    (language : Option String) (sp : Bool) (newId now : Nat)
    (fields : List (String × PyVal)) (t : String)
    (hsup : is_supported_url s url = true)
    (hcache : s.cache_enabled = true)
    (hent : assocGet entries (generate_cache_key url model) = some (.vDict fields))
    (htext : PyVal.get? (.vDict fields) "text" = some (.vStr t)) :
    ∃ job,
      (create_job s running ⟨some entries⟩ jobs url model language sp newId now).outcome =
        .ok job ∧
      job.status = .completed ∧ job.text = some t ∧
      job.processing_time_ms = some 0 ∧
      (create_job s running ⟨some entries⟩ jobs url model language sp newId now).scheduled =
        false ∧
      (create_job s running ⟨some entries⟩ jobs url model language sp newId now).cache =
        ⟨some entries⟩ ∧
      (create_job s running ⟨some entries⟩ jobs url model language sp newId now).jobs =
        jobs ++ [job] := by
  obtain ⟨p, hp, hp2⟩ : ∃ p, fields.find? (fun q => q.1 == "text") = some p ∧
      p.2 = PyVal.vStr t := by
    cases hf : fields.find? (fun q => q.1 == "text") with
    | none => simp [PyVal.get?, hf] at htext
    | some q =>
      refine ⟨q, rfl, ?_⟩
      simpa [PyVal.get?, hf] using htext
  have hne : entries ≠ [] := by
    intro h
    rw [h] at hent
    simp [assocGet] at hent
  have hTr : cacheTruthy (some entries) = true := by
    cases entries with
    | nil => exact absurd rfl hne
    | cons a as => rfl
  have hfne : fields ≠ [] := by
    intro h
    rw [h] at hp
    simp at hp
  have htruthy : (PyVal.vDict fields).truthy = true := by
    cases fields with
    | nil => exact absurd rfl hfne
    | cons a as => rfl
  have hkey : (PyVal.vDict fields).hasKey "text" = true := by
    have hps := List.find?_some hp
    simp only [PyVal.hasKey, List.any_eq_true]
    exact ⟨p, List.mem_of_find?_eq_some hp, hps⟩
  have hget : get_transcription ⟨some entries⟩ url model =
      (some (.vDict fields), ⟨some entries⟩) := by
    unfold get_transcription
    simp [hTr, hent, htruthy, hkey, PyVal.isDict]
  unfold create_job
  simp only [hsup, hcache, hget, htext, PyVal.asStr?, Option.bind, Bool.not_true,
    Bool.false_eq_true, if_false, if_true]
  exact ⟨_, rfl, rfl, rfl, rfl, trivial, trivial, rfl⟩

/-- Witness for C1: the cache-hit branch at the concrete pair from the
spec scenario, with "hello world" cached. -/
theorem create_job_cache_hit_witness :
    ∃ job,
      (create_job sampleSettings 0
          ⟨some [(generate_cache_key "https://x/video" "base", validEntry)]⟩
          [] "https://x/video" "base" none true 1 0).outcome = .ok job ∧
      job.status = .completed ∧ job.text = some "hello world" ∧
      job.processing_time_ms = some 0 ∧
      (create_job sampleSettings 0
          ⟨some [(generate_cache_key "https://x/video" "base", validEntry)]⟩
          [] "https://x/video" "base" none true 1 0).scheduled = false ∧
      (create_job sampleSettings 0
          ⟨some [(generate_cache_key "https://x/video" "base", validEntry)]⟩
          [] "https://x/video" "base" none true 1 0).cache =
        ⟨some [(generate_cache_key "https://x/video" "base", validEntry)]⟩ ∧
      (create_job sampleSettings 0
          ⟨some [(generate_cache_key "https://x/video" "base", validEntry)]⟩
          [] "https://x/video" "base" none true 1 0).jobs = [] ++ [job] :=
  create_job_cache_hit sampleSettings 0
    [(generate_cache_key "https://x/video" "base", validEntry)] []
    "https://x/video" "base" none true 1 0
    [("text", .vStr "hello world")] "hello world"
    (by decide) rfl (by rfl) (by rfl)

/-- C2: starting from a job that carries no text (the state in which a
job enters the pipeline), every state committed by a pipeline run whose
status is failed has a non-null error and null text. -/
theorem failed_jobs_have_error_and_no_text (s : AppSettings) (env : PipelineEnv)
    (cache : CacheState) (job : Job) (ht : job.text = none) :
    ∀ j ∈ (process_job s env cache job).1, j.status = .failed →
      j.error ≠ none ∧ j.text = none := by
  obtain ⟨dl, bk, tr, cf, st, et⟩ := env
  intro j hj hst
  cases dl with
  | error e =>
    simp only [process_job, List.mem_cons, List.not_mem_nil, or_false] at hj
    rcases hj with rfl | rfl
    · simp at hst
    · exact ⟨by simp [markJobFailed], by simp [markJobFailed, ht]⟩
  | ok audio =>
    cases bk with
    | none =>
      simp only [process_job, List.mem_cons, List.not_mem_nil, or_false] at hj
      rcases hj with rfl | rfl | rfl
      · simp at hst
      · simp at hst
      · exact ⟨by simp [markJobFailed], by simp [markJobFailed, ht]⟩
    | some b =>
      cases tr with
      | error e =>
        simp only [process_job, List.mem_cons, List.not_mem_nil, or_false] at hj
        rcases hj with rfl | rfl | rfl | rfl
        · simp at hst
        · simp at hst
        · simp at hst
        · exact ⟨by simp [markJobFailed], by simp [markJobFailed, ht]⟩
      | ok result =>
        simp only [process_job, List.mem_cons, List.not_mem_nil, or_false] at hj
        rcases hj with rfl | rfl | rfl | rfl | rfl | rfl <;> simp at hst

/-- Witness for C2: the failed snapshot of a concrete run whose download
step raised. -/
theorem failed_jobs_have_error_and_no_text_witness :
    ((process_job sampleSettings envDownloadFail emptyCache freshJob).1.getD 1
        freshJob).error ≠ none ∧
    ((process_job sampleSettings envDownloadFail emptyCache freshJob).1.getD 1
        freshJob).text = none :=
  failed_jobs_have_error_and_no_text sampleSettings envDownloadFail emptyCache
    freshJob rfl _ (by decide) (by rfl)

/-- Counterexample for C3 as stated: in a fully successful concrete run
the second and third committed states both have status processing, and
progress falls from 100 to 0 between them (the reset at the
downloading-to-transcribing phase switch). -/
theorem progress_decreases_counterexample :
    (sampleTrace.getD 1 freshJob).status = .processing ∧
    (sampleTrace.getD 2 freshJob).status = .processing ∧
    (sampleTrace.getD 1 freshJob).progress = 100 ∧
    (sampleTrace.getD 2 freshJob).progress = 0 :=
  ⟨rfl, rfl, rfl, rfl⟩

/-- C3 (amended): between consecutive committed states of a pipeline
run, progress never decreases while the status stays processing and the
phase is unchanged; the decreases that do occur all happen at phase
switches (the progress field is scoped to the current phase). -/
theorem progress_monotone_within_phase (s : AppSettings) (env : PipelineEnv)
    (cache : CacheState) (job : Job) :
    List.Chain' phaseMonotone (process_job s env cache job).1 := by
  obtain ⟨dl, bk, tr, cf, st, et⟩ := env
  cases dl with
  | error e =>
    simp [process_job, List.chain'_cons, phaseMonotone, markJobFailed]
  | ok audio =>
    cases bk with
    | none =>
      simp [process_job, List.chain'_cons, phaseMonotone, markJobFailed]
    | some b =>
      cases tr with
      | error e =>
        simp [process_job, List.chain'_cons, phaseMonotone, markJobFailed]
      | ok result =>
        simp [process_job, List.chain'_cons, phaseMonotone, markJobFailed]

/-- Witness for the amended C3: the per-phase monotonicity on the
concrete successful trace. -/
theorem progress_monotone_within_phase_witness :
    List.Chain' phaseMonotone sampleTrace :=
  progress_monotone_within_phase sampleSettings envAllOk emptyCache freshJob

/-- C9: the cache store operation returns normally in all cases — a
result lacking a text field leaves the cache unchanged, an internal
cache.set failure is swallowed leaving the cache unchanged — and the
committed job states of a pipeline run are identical whether or not the
cache write fails, so a cache write failure cannot fail an
otherwise-successful job. -/
theorem cache_write_never_fails_job (s : AppSettings) (env : PipelineEnv)
    (cache : CacheState) (job : Job) :
    (∀ (fails : Bool) (c : CacheState) (url model : String) (r : PyVal) (now : Nat),
        r.hasKey "text" = false → store_transcription fails c url model r now = c) ∧
    (∀ (c : CacheState) (url model : String) (r : PyVal) (now : Nat),
        store_transcription true c url model r now = c) ∧
    (process_job s { env with cacheSetFails := true } cache job).1 =
      (process_job s env cache job).1 := by
  refine ⟨?_, ?_, ?_⟩
  · intro fails c url model r now hr
    unfold store_transcription store_transcription_raw
    cases cacheTruthy c.store <;> simp [hr]
  · intro c url model r now
    unfold store_transcription store_transcription_raw
    cases cacheTruthy c.store <;> by_cases hr : r.hasKey "text" = true <;> simp [hr]
  · obtain ⟨dl, bk, tr, cf, st, et⟩ := env
    cases dl with
    | error e => rfl
    | ok audio =>
      cases bk with
      | none => rfl
      | some b => cases tr <;> rfl

/-- Witness for C9: a failing cache.set and a text-less result both
leave a concrete non-empty cache unchanged. -/
theorem cache_write_never_fails_job_witness :
    store_transcription true seededCache "https://x/video" "base"
      (.vDict [("text", .vStr "hi")]) 0 = seededCache ∧
    store_transcription false seededCache "https://x/video" "base"
      (.vDict [("title", .vStr "no text")]) 0 = seededCache :=
  ⟨(cache_write_never_fails_job sampleSettings envAllOk emptyCache freshJob).2.1
      seededCache "https://x/video" "base" (.vDict [("text", .vStr "hi")]) 0,
   (cache_write_never_fails_job sampleSettings envAllOk emptyCache freshJob).1
      false seededCache "https://x/video" "base"
      (.vDict [("title", .vStr "no text")]) 0 (by decide)⟩

/-- A run of the polling loop that returned no snapshots saw a missing
job at its first poll. -/
theorem streamAux_nil_obs (obs : Nat → Option Job) (start fuel : Nat)
    (h : streamAux obs start fuel = some []) : obs start = none := by
  cases fuel with
  | zero => simp [streamAux] at h
  | succ n =>
    unfold streamAux at h
    cases ho : obs start with
    | none => rfl
    | some j =>
      rw [ho] at h
      by_cases ht : isTerminalStatus j.status = true
      · simp [ht] at h
      · simp only [ht, if_false, Bool.false_eq_true] at h
        obtain ⟨rest, -, hcons⟩ := Option.map_eq_some'.mp h
        cases hcons

/-- If the loop returned within some fuel bound, some poll observed a
missing or terminal job. -/
theorem streamAux_isSome_imp_stop (obs : Nat → Option Job) :
    ∀ fuel start out, streamAux obs start fuel = some out →
      ∃ n, stopObs obs (start + n) := by
  intro fuel
  induction fuel with
  | zero =>
    intro start out h
    simp [streamAux] at h
  | succ n ih =>
    intro start out h
    unfold streamAux at h
    cases ho : obs start with
    | none => exact ⟨0, Or.inl ho⟩
    | some j =>
      rw [ho] at h
      by_cases ht : isTerminalStatus j.status = true
      · exact ⟨0, Or.inr ⟨j, ho, ht⟩⟩
      · simp only [ht, if_false, Bool.false_eq_true] at h
        obtain ⟨rest, hrest, -⟩ := Option.map_eq_some'.mp h
        obtain ⟨n', hn'⟩ := ih (start + 1) rest hrest
        refine ⟨n' + 1, ?_⟩
        have harith : start + (n' + 1) = start + 1 + n' := by omega
        rw [harith]
        exact hn'

/-- If some poll observes a missing or terminal job, the loop returns
within that many polls plus one. -/
theorem stop_imp_streamAux_isSome (obs : Nat → Option Job) :
    ∀ n start, stopObs obs (start + n) →
      ∃ out, streamAux obs start (n + 1) = some out := by
  intro n
  induction n with
  | zero =>
    intro start h
    rw [Nat.add_zero] at h
    rcases h with h | ⟨j, hj, ht⟩
    · exact ⟨[], by unfold streamAux; simp [h]⟩
    · exact ⟨[j], by unfold streamAux; simp [hj, ht]⟩
  | succ n ih =>
    intro start h
    cases ho : obs start with
    | none => exact ⟨[], by unfold streamAux; simp [ho]⟩
    | some j =>
      by_cases ht : isTerminalStatus j.status = true
      · exact ⟨[j], by unfold streamAux; simp [ho, ht]⟩
      · have h' : stopObs obs (start + 1 + n) := by
          have harith : start + (n + 1) = start + 1 + n := by omega
          rwa [harith] at h
        obtain ⟨out, hout⟩ := ih (start + 1) h'
        exact ⟨j :: out, by unfold streamAux; simp [ho, ht, hout]⟩

/-- The returned snapshot list is empty, or ends in a terminal snapshot,
or ends right before a poll that found the job missing. -/
theorem streamAux_last_shape (obs : Nat → Option Job) :
    ∀ fuel start out, streamAux obs start fuel = some out →
      out = [] ∨ ∃ j, out.getLast? = some j ∧
        (isTerminalStatus j.status = true ∨ obs (start + out.length) = none) := by
  intro fuel
  induction fuel with
  | zero =>
    intro start out h
    simp [streamAux] at h
  | succ n ih =>
    intro start out h
    unfold streamAux at h
    cases ho : obs start with
    | none =>
      rw [ho] at h
      cases h
      exact Or.inl rfl
    | some j =>
      rw [ho] at h
      by_cases ht : isTerminalStatus j.status = true
      · simp only [ht, if_true] at h
        cases h
        exact Or.inr ⟨j, rfl, Or.inl ht⟩
      · simp only [ht, if_false, Bool.false_eq_true] at h
        obtain ⟨rest, hrest, hcons⟩ := Option.map_eq_some'.mp h
        cases hcons
        rcases ih (start + 1) rest hrest with hrnil | ⟨j', hj', hcase⟩
        · subst hrnil
          refine Or.inr ⟨j, rfl, Or.inr ?_⟩
          have := streamAux_nil_obs obs (start + 1) n hrest
          simpa using this
        · have hne : rest ≠ [] := by
            intro hh
            rw [hh] at hj'
            cases hj'
          refine Or.inr ⟨j', ?_, ?_⟩
          · cases rest with
            | nil => exact absurd rfl hne
            | cons r rs => rw [List.getLast?_cons_cons]; exact hj'
          · rcases hcase with hterm | hnone
            · exact Or.inl hterm
            · refine Or.inr ?_
              have harith : start + (j :: rest).length = start + 1 + rest.length := by
                simp [List.length_cons]
                omega
              rw [harith]
              exact hnone

/-- Every returned snapshot is exactly what the corresponding poll
observed. -/
theorem streamAux_snapshots (obs : Nat → Option Job) :
    ∀ fuel start out, streamAux obs start fuel = some out →
      ∀ d i, i < out.length → obs (start + i) = some (out.getD i d) := by
  intro fuel
  induction fuel with
  | zero =>
    intro start out h
    simp [streamAux] at h
  | succ n ih =>
    intro start out h
    unfold streamAux at h
    cases ho : obs start with
    | none =>
      rw [ho] at h
      cases h
      intro d i hi
      simp at hi
    | some j =>
      rw [ho] at h
      by_cases ht : isTerminalStatus j.status = true
      · simp only [ht, if_true] at h
        cases h
        intro d i hi
        simp only [List.length_cons, List.length_nil] at hi
        interval_cases i
        simpa using ho
      · simp only [ht, if_false, Bool.false_eq_true] at h
        obtain ⟨rest, hrest, hcons⟩ := Option.map_eq_some'.mp h
        cases hcons
        intro d i hi
        cases i with
        | zero => simpa using ho
        | succ k =>
          have hk : k < rest.length := by
            simpa [List.length_cons, Nat.succ_lt_succ_iff] using hi
          have := ih (start + 1) rest hrest d k hk
          have harith : start + (k + 1) = start + 1 + k := by omega
          rw [harith]
          simpa using this

/-- C10 (amended): the polling stream terminates exactly when some poll
finds the job missing or in a terminal status; it yields nothing when
the job is missing at the first poll; each yielded snapshot is the job
observed at the corresponding poll; and a finished stream is empty or
ends with a terminal snapshot or at a poll where the job had vanished.
A job that forever stays non-terminal gives an infinite stream. -/
theorem stream_job_updates_spec (obs : Nat → Option Job) :
    (streamTerminates obs ↔ ∃ n, stopObs obs n) ∧
    (obs 0 = none → streamAux obs 0 1 = some []) ∧
    (∀ fuel out, streamAux obs 0 fuel = some out →
      (out = [] ∨ ∃ j, out.getLast? = some j ∧
        (isTerminalStatus j.status = true ∨ obs out.length = none)) ∧
      (∀ d i, i < out.length → obs i = some (out.getD i d))) := by
  refine ⟨⟨?_, ?_⟩, ?_, ?_⟩
  · rintro ⟨fuel, out, h⟩
    obtain ⟨n, hn⟩ := streamAux_isSome_imp_stop obs fuel 0 out h
    exact ⟨n, by simpa using hn⟩
  · rintro ⟨n, hn⟩
    obtain ⟨out, hout⟩ := stop_imp_streamAux_isSome obs n 0 (by simpa using hn)
    exact ⟨n + 1, out, hout⟩
  · intro h0
    unfold streamAux
    simp [h0]
  · intro fuel out h
    constructor
    · simpa using streamAux_last_shape obs fuel 0 out h
    · intro d i hi
      simpa using streamAux_snapshots obs fuel 0 out h d i hi

/-- Counterexample for C10 as stated: a job that never leaves pending
(for instance one created beyond the concurrency cap, which nothing ever
dequeues) makes the stream infinite — no fuel bound sees it return. -/
theorem stream_may_never_terminate : ¬ streamTerminates pendingObs := by
  have haux : ∀ fuel start, streamAux pendingObs start fuel = none := by
    intro fuel
    induction fuel with
    | zero => intro start; rfl
    | succ n ih =>
      intro start
      unfold streamAux
      simp [pendingObs, foreverPendingJob, isTerminalStatus, ih]
  rintro ⟨fuel, out, h⟩
  rw [haux fuel 0] at h
  cases h

/-- Witness for the amended C10: immediate empty termination at a
concrete observation with no job. -/
theorem stream_job_updates_spec_witness :
    streamAux missingObs 0 1 = some [] :=
  (stream_job_updates_spec missingObs).2.1 rfl

end YtText
